import Mathlib

/-!
Verification development for the cart store of the Yallah-Pharmacy storefront
(`src/context/CartContext.tsx`).

The cart store is a reducer over an in-memory list of cart lines, with wrapper
functions that sanitize numeric arguments before dispatching, hydration from
durable storage at session start, and a cross-tab storage listener.

Embedding conventions:
* JavaScript numbers are modelled as rationals (`ℚ`); `Math.trunc` is
  truncation toward zero (`jsTrunc`), `Math.max` is `max`.
* A JavaScript value read from an untyped source (an incoming item's
  `quantity` field, or an element of a parsed JSON array) may be missing or
  non-numeric; such a quantity is modelled as `Option ℚ` with `none` for the
  missing / non-numeric (`undefined` / `NaN`) case.  The source reads it only
  through `p.quantity || 1`, under which `none` and `0` are both falsy.
* `JSON.parse` of the stored string is modelled by its outcome
  (`StorageRead`): the raw string may be absent, fail to parse, parse to a
  non-array value, or parse to an array of objects; array elements are read
  permissively as raw items, matching the source, which never validates their
  shape beyond `Array.isArray` and spreads every field through unchanged.
* `JSON.stringify` of the item list followed by a later `JSON.parse` is
  modelled at the JSON-tree level by `persistedVal` (the string-level JSON
  grammar round-trip is a property of the JSON library, not of this code).
-/

namespace Cart

/-- JavaScript `Math.trunc` on a rational: truncation toward zero. -/
def jsTrunc (x : ℚ) : ℤ :=
  Int.tdiv x.num (x.den : ℤ)

/-- JavaScript `q || 1` as applied to a possibly missing / non-numeric
quantity field: `undefined`, `NaN` and `0` are falsy and yield `1`. -/
def jsOr1 : Option ℚ → ℚ
  | none => 1
  | some q => if q = 0 then 1 else q

/-- A stored cart line (`CartItem` in the source).  Optional descriptive
fields are carried opaquely. -/
structure CartItem where
  id : String
  name : String
  price : ℚ
  image : Option String
  quantity : ℚ
  category : Option String
  description : Option String
  variation : Option String
  inStock : Option Bool
  originalPrice : Option ℚ
  discount : Option ℚ
deriving DecidableEq

/-- A cart line as received from an untyped source (an `addToCart` argument at
runtime, or an element of a parsed JSON array): its `quantity` field may be
missing or non-numeric (`none`). -/
structure RawItem where
  id : String
  name : String
  price : ℚ
  image : Option String
  quantity : Option ℚ
  category : Option String
  description : Option String
  variation : Option String
  inStock : Option Bool
  originalPrice : Option ℚ
  discount : Option ℚ
deriving DecidableEq

/-- The integer `Math.max(1, Math.trunc(q || 1))` used on every sanitization
path. -/
def sanitizeQtyInt (q : Option ℚ) : ℤ :=
  max 1 (jsTrunc (jsOr1 q))

/-- `{ ...p, quantity: Math.max(1, Math.trunc(p.quantity || 1)) }`. -/
def sanitizeRaw (p : RawItem) : CartItem :=
  { id := p.id, name := p.name, price := p.price, image := p.image
    quantity := (sanitizeQtyInt p.quantity : ℚ)
    category := p.category, description := p.description
    variation := p.variation, inStock := p.inStock
    originalPrice := p.originalPrice, discount := p.discount }

/-- `CartState` in the source. -/
structure CartState where
  items : List CartItem
deriving DecidableEq

/-- The reducer's `Action` type. -/
inductive Action where
  | init (payload : List CartItem)
  | add (payload : CartItem)
  | remove (id : String)
  | clear
  | updateQty (id : String) (quantity : ℚ)
  | increaseQty (id : String) (delta : ℚ)
  | decreaseQty (id : String) (delta : ℚ)

/-- The pure reducer of `CartContext.tsx`. -/
def reducer (state : CartState) : Action → CartState
  | .init payload => { items := payload }
  | .add item =>
      if (state.items.find? fun i => i.id == item.id).isSome then
        { items := state.items.map fun i =>
            if i.id == item.id then { i with quantity := i.quantity + item.quantity } else i }
      else
        { items := state.items ++ [item] }
  | .remove id =>
      { items := state.items.filter fun i => i.id != id }
  | .clear => { items := [] }
  | .updateQty id quantity =>
      if quantity < 1 then state
      else
        { items := state.items.map fun i =>
            if i.id == id then { i with quantity := quantity } else i }
  | .increaseQty id delta =>
      { items := state.items.map fun i =>
          if i.id == id then { i with quantity := i.quantity + ((max 1 (jsTrunc delta) : ℤ) : ℚ) }
          else i }
  | .decreaseQty id delta =>
      { items := state.items.map fun i =>
          if i.id == id then
            { i with quantity := max 1 (i.quantity - ((max 1 (jsTrunc delta) : ℤ) : ℚ)) }
          else i }

/-- `addToCart`: sanitizes the incoming item's quantity, then dispatches
`ADD`. -/
def addToCart (item : RawItem) (s : CartState) : CartState :=
  reducer s (.add (sanitizeRaw item))

/-- `removeFromCart`. -/
def removeFromCart (id : String) (s : CartState) : CartState :=
  reducer s (.remove id)

/-- `clearCart`. -/
def clearCart (s : CartState) : CartState :=
  reducer s .clear

/-- `updateQuantity` (the spec's `setQuantity`): clamps the requested numeric
quantity to `Math.max(1, Math.trunc(quantity))` before dispatching
`UPDATE_QTY`. -/
def updateQuantity (id : String) (quantity : ℚ) (s : CartState) : CartState :=
  reducer s (.updateQty id ((max 1 (jsTrunc quantity) : ℤ) : ℚ))

/-- `increaseQty` (the spec's `increaseQuantity`); the source's default delta
is `1`, passed explicitly here. -/
def increaseQty (id : String) (delta : ℚ) (s : CartState) : CartState :=
  reducer s (.increaseQty id delta)

/-- `decreaseQty` (the spec's `decreaseQuantity`); the source's default delta
is `1`, passed explicitly here. -/
def decreaseQty (id : String) (delta : ℚ) (s : CartState) : CartState :=
  reducer s (.decreaseQty id delta)

/-- `getCartTotal` (the spec's `total()`): a fold over the current snapshot. -/
def getCartTotal (s : CartState) : ℚ :=
  s.items.foldl (fun sum it => sum + it.price * it.quantity) 0

/-- `getTotalItems` (the spec's `itemCount()`). -/
def getTotalItems (s : CartState) : ℚ :=
  s.items.foldl (fun sum it => sum + it.quantity) 0

/-- A JSON value held in durable storage, as far as the source inspects it:
`Array.isArray` distinguishes an array — whose elements are read permissively
as raw items — from any non-array value. -/
inductive StoredVal where
  | arr (elems : List RawItem)
  | nonArray
deriving DecidableEq

/-- The outcome of reading and `JSON.parse`-ing the stored string:
the raw string can be absent (falsy), fail to parse (`JSON.parse` throws), or
parse to a value. -/
inductive StorageRead where
  | absent
  | unparsable
  | value (v : StoredVal)
deriving DecidableEq

/-- The sanitization pass `parsed.map(p => ({ ...p, quantity: ... }))`. -/
def sanitizePayload (elems : List RawItem) : List CartItem :=
  elems.map sanitizeRaw

/-- The hydration effect (the `INIT` `useEffect`): absent, unparsable and
non-array stored values all reset to an empty snapshot; an array is sanitized
and adopted.  Every branch dispatches, so hydration is total — it never
throws. -/
def hydrate (raw : StorageRead) (s : CartState) : CartState :=
  match raw with
  | .absent => reducer s (.init [])
  | .unparsable => reducer s (.init [])
  | .value (.arr elems) => reducer s (.init (sanitizePayload elems))
  | .value .nonArray => reducer s (.init [])

/-- The versioned durable-storage key. -/
def storageKey : String := "cart_items_v1"

/-- The cross-tab `storage` listener `onStorage`: events for other keys are
ignored; an absent `newValue` is replaced by `[]` (an array) and adopted; a
parse failure is caught and ignored (no dispatch); a non-array parsed value
falls through `Array.isArray` with no dispatch; an array is sanitized and
adopted. -/
def onStorage (key : String) (raw : StorageRead) (s : CartState) : CartState :=
  if key != storageKey then s
  else
    match raw with
    | .absent => reducer s (.init (sanitizePayload []))
    | .unparsable => s
    | .value (.arr elems) => reducer s (.init (sanitizePayload elems))
    | .value .nonArray => s

/-- `JSON.stringify` of one stored line followed by a later `JSON.parse`,
at the JSON-tree level: every field is written and read back; the numeric
`quantity` comes back as a present number. -/
def encodeItem (i : CartItem) : RawItem :=
  { id := i.id, name := i.name, price := i.price, image := i.image
    quantity := some i.quantity
    category := i.category, description := i.description
    variation := i.variation, inStock := i.inStock
    originalPrice := i.originalPrice, discount := i.discount }

/-- The durable value written by the debounced persist effect
(`JSON.stringify(state.items)`), as later observed by a reader: an array of
the snapshot's lines. -/
def persistedVal (s : CartState) : StoredVal :=
  .arr (s.items.map encodeItem)

/-- One public operation of the store, for invariant statements that range
over every mutation path. -/
inductive CartOp where
  | addOp (item : RawItem)
  | removeOp (id : String)
  | clearOp
  | setQtyOp (id : String) (q : ℚ)
  | incOp (id : String) (delta : ℚ)
  | decOp (id : String) (delta : ℚ)
  | hydrateOp (raw : StorageRead)
  | syncOp (key : String) (raw : StorageRead)

/-- Apply one public operation to a snapshot. -/
def applyOp : CartOp → CartState → CartState
  | .addOp item, s => addToCart item s
  | .removeOp id, s => removeFromCart id s
  | .clearOp, s => clearCart s
  | .setQtyOp id q, s => updateQuantity id q s
  | .incOp id delta, s => increaseQty id delta s
  | .decOp id delta, s => decreaseQty id delta s
  | .hydrateOp raw, s => hydrate raw s
  | .syncOp key raw, s => onStorage key raw s

/-- The quantity invariant of the data model: every line's quantity is an
integer greater than or equal to 1. -/
def QtyInv (s : CartState) : Prop :=
  ∀ i ∈ s.items, ∃ n : ℤ, 1 ≤ n ∧ i.quantity = (n : ℚ)

/-- The id-uniqueness invariant: no two lines share an id. -/
def UniqueIds (s : CartState) : Prop :=
  (s.items.map CartItem.id).Nodup

/-- A sequence of `addToCart` calls, applied left to right. -/
def addAll (raws : List RawItem) (s : CartState) : CartState :=
  raws.foldl (fun s r => addToCart r s) s

/-- Side condition under which an operation's external payload is
well-formed for id uniqueness: a hydrated or cross-tab-adopted array must
itself carry pairwise distinct ids.  Every purely in-memory operation needs
no condition. -/
def opPayloadUnique : CartOp → Prop
  | .hydrateOp (.value (.arr elems)) => (elems.map RawItem.id).Nodup
  | .syncOp _ (.value (.arr elems)) => (elems.map RawItem.id).Nodup
  | _ => True

/-- Concrete stored line used by witnesses: id `"a"`, price 100, the given
quantity, no optional fields. -/
def lineA (q : ℚ) : CartItem :=
  ⟨"a", "Item A", 100, none, q, none, none, none, none, none, none⟩

/-- Concrete stored line with id `"b"`, price 50. -/
def lineB (q : ℚ) : CartItem :=
  ⟨"b", "Item B", 50, none, q, none, none, none, none, none, none⟩

/-- Concrete raw (untyped) line with id `"a"`, price 100. -/
def rawA (q : Option ℚ) : RawItem :=
  ⟨"a", "Item A", 100, none, q, none, none, none, none, none, none⟩

section Theorems

/- Arithmetic facts about the sanitization primitives. -/

theorem jsTrunc_nonpos_of_lt_one (q : ℚ) (h : q < 1) : jsTrunc q ≤ 0 := by
  unfold jsTrunc
  rcases le_or_lt q.num 0 with hn | hn
  · have hrw : q.num = -(-q.num) := by ring
    rw [hrw, Int.neg_tdiv]
    have := Int.tdiv_nonneg (show (0:ℤ) ≤ -q.num by omega)
      (show (0:ℤ) ≤ (q.den : ℤ) by positivity)
    omega
  · have hd : (0:ℚ) < (q.den : ℚ) := by positivity
    have h2 : (q.num : ℚ) / (q.den : ℚ) < 1 := by rw [Rat.num_div_den]; exact h
    rw [div_lt_one hd] at h2
    exact le_of_eq (Int.tdiv_eq_zero_of_lt (by omega) (by exact_mod_cast h2))

theorem jsTrunc_intCast (n : ℤ) : jsTrunc (n : ℚ) = n := by
  unfold jsTrunc
  rw [Rat.num_intCast, Rat.den_intCast]
  exact Int.tdiv_one n

/-- **C1** (corrected).  The claim says `setQuantity(id, q)` with `q < 1`
retains the existing quantity.  In the code, `updateQuantity` clamps the
requested quantity to `Math.max(1, Math.trunc(q))` *before* dispatching, so a
request below 1 sets every line with that id to quantity 1 — the line is
retained, not removed, and other lines are untouched, but an existing
quantity above 1 *is* changed (to 1). -/
theorem setQuantity_below_one_clamps_to_one (s : CartState) (id : String) (q : ℚ)
    (h : q < 1) :
    updateQuantity id q s =
      ⟨s.items.map fun i => if i.id == id then { i with quantity := 1 } else i⟩ := by
  have h1 : ((max 1 (jsTrunc q) : ℤ) : ℚ) = 1 := by
    have := jsTrunc_nonpos_of_lt_one q h
    have : max 1 (jsTrunc q) = 1 := by omega
    rw [this]; norm_num
  unfold updateQuantity reducer
  rw [h1]
  norm_num

/-- Witness for `setQuantity_below_one_clamps_to_one` at `q = 0` on a
one-line cart of quantity 2. -/
theorem setQuantity_below_one_clamps_to_one_witness :
    (0:ℚ) < 1 ∧
      updateQuantity "a" 0 ⟨[lineA 2]⟩ =
        ⟨[lineA 2].map fun i => if i.id == "a" then { i with quantity := 1 } else i⟩ :=
  ⟨by norm_num, setQuantity_below_one_clamps_to_one ⟨[lineA 2]⟩ "a" 0 (by norm_num)⟩

/-- **C1** counterexample: on a cart whose single line `"a"` has quantity 2,
`setQuantity("a", 0)` changes the stored quantity to 1, so the operation is
not a no-op as the claim states (the line is retained, not removed). -/
theorem setQuantity_below_one_not_noop :
    updateQuantity "a" 0 ⟨[lineA 2]⟩ ≠ ⟨[lineA 2]⟩ ∧
      updateQuantity "a" 0 ⟨[lineA 2]⟩ = ⟨[lineA 1]⟩ := by
  constructor
  · decide
  · decide

/-- Every line produced by the sanitization pass has an integer quantity
greater than or equal to 1. -/
theorem qtyInv_sanitizePayload (elems : List RawItem) : QtyInv ⟨sanitizePayload elems⟩ := by
  intro i hi
  simp only [sanitizePayload, List.mem_map] at hi
  obtain ⟨p, _, rfl⟩ := hi
  exact ⟨sanitizeQtyInt p.quantity, le_max_left _ _, rfl⟩

/-- **C2** (confirmed).  Every public operation — add, remove, clear,
setQuantity, increaseQuantity, decreaseQuantity, hydration and cross-tab
synchronization — preserves the invariant that every line's quantity is an
integer ≥ 1.  The decrease case realizes the clamp
`Math.max(1, q - Math.max(1, Math.trunc(delta)))`, so a decrease that would
go below 1 yields exactly 1. -/
theorem qty_invariant_preserved (op : CartOp) (s : CartState) (h : QtyInv s) :
    QtyInv (applyOp op s) := by
  cases op with
  | addOp item =>
      simp only [applyOp, addToCart, reducer]
      split
      · intro i hi
        simp only [List.mem_map] at hi
        obtain ⟨j, hj, rfl⟩ := hi
        obtain ⟨n, hn1, hn2⟩ := h j hj
        simp only [sanitizeRaw]
        by_cases hid : j.id == item.id
        · refine ⟨n + sanitizeQtyInt item.quantity, ?_, ?_⟩
          · have := le_max_left 1 (jsTrunc (jsOr1 item.quantity))
            simp only [sanitizeQtyInt]
            omega
          · simp only [hid, if_true, hn2]
            push_cast
            ring
        · simp only [hid, if_false]
          exact ⟨n, hn1, hn2⟩
      · intro i hi
        simp only [List.mem_append, List.mem_singleton] at hi
        rcases hi with hi | rfl
        · exact h i hi
        · exact ⟨sanitizeQtyInt item.quantity, le_max_left _ _, rfl⟩
  | removeOp id =>
      intro i hi
      simp only [applyOp, removeFromCart, reducer, List.mem_filter] at hi
      exact h i hi.1
  | clearOp =>
      intro i hi
      simp only [applyOp, clearCart, reducer, List.not_mem_nil] at hi
  | setQtyOp id q =>
      simp only [applyOp, updateQuantity, reducer]
      split
      · exact h
      · intro i hi
        simp only [List.mem_map] at hi
        obtain ⟨j, hj, rfl⟩ := hi
        by_cases hid : j.id == id
        · exact ⟨max 1 (jsTrunc q), le_max_left _ _, by simp [hid]⟩
        · simp only [hid, if_false]
          exact h j hj
  | incOp id delta =>
      intro i hi
      simp only [applyOp, increaseQty, reducer, List.mem_map] at hi
      obtain ⟨j, hj, rfl⟩ := hi
      obtain ⟨n, hn1, hn2⟩ := h j hj
      by_cases hid : j.id == id
      · refine ⟨n + max 1 (jsTrunc delta), ?_, ?_⟩
        · have := le_max_left 1 (jsTrunc delta)
          omega
        · simp only [hid, if_true, hn2]
          push_cast
          ring
      · simp only [hid, if_false]
        exact ⟨n, hn1, hn2⟩
  | decOp id delta =>
      intro i hi
      simp only [applyOp, decreaseQty, reducer, List.mem_map] at hi
      obtain ⟨j, hj, rfl⟩ := hi
      obtain ⟨n, hn1, hn2⟩ := h j hj
      by_cases hid : j.id == id
      · refine ⟨max 1 (n - max 1 (jsTrunc delta)), le_max_left _ _, ?_⟩
        simp only [hid, if_true, hn2]
        push_cast
        ring_nf
      · simp only [hid, if_false]
        exact ⟨n, hn1, hn2⟩
  | hydrateOp raw =>
      cases raw with
      | absent => intro i hi; simp only [applyOp, hydrate, reducer, List.not_mem_nil] at hi
      | unparsable => intro i hi; simp only [applyOp, hydrate, reducer, List.not_mem_nil] at hi
      | value v =>
          cases v with
          | arr elems => exact qtyInv_sanitizePayload elems
          | nonArray => intro i hi; simp only [applyOp, hydrate, reducer, List.not_mem_nil] at hi
  | syncOp key raw =>
      simp only [applyOp, onStorage]
      split
      · exact h
      · cases raw with
        | absent => exact qtyInv_sanitizePayload []
        | unparsable => exact h
        | value v =>
            cases v with
            | arr elems => exact qtyInv_sanitizePayload elems
            | nonArray => exact h

/-- Witness for `qty_invariant_preserved`: the spec's scenario
`decreaseQuantity("a", 10)` on a line with quantity 2; the invariant holds
before and after, and the resulting quantity is exactly 1. -/
theorem qty_invariant_preserved_witness :
    QtyInv ⟨[lineA 2]⟩ ∧ QtyInv (applyOp (.decOp "a" 10) ⟨[lineA 2]⟩) ∧
      applyOp (.decOp "a" 10) ⟨[lineA 2]⟩ = ⟨[lineA 1]⟩ :=
  ⟨fun i hi => by
      simp only [List.mem_singleton] at hi
      exact ⟨2, by norm_num, by rw [hi]; norm_num [lineA]⟩,
   qty_invariant_preserved (.decOp "a" 10) ⟨[lineA 2]⟩
     (fun i hi => by
        simp only [List.mem_singleton] at hi
        exact ⟨2, by norm_num, by rw [hi]; norm_num [lineA]⟩),
   by
     have h10 : jsTrunc (10:ℚ) = 10 := by
       rw [show ((10:ℚ)) = ((10:ℤ):ℚ) from by norm_num]
       exact jsTrunc_intCast 10
     simp only [applyOp, decreaseQty, reducer, h10, lineA, List.map]
     norm_num⟩

/-- A map that does not touch ids leaves the id-uniqueness of a line list
intact. -/
theorem nodup_ids_map (items : List CartItem) (f : CartItem → CartItem)
    (hf : ∀ i, (f i).id = i.id) (h : (items.map CartItem.id).Nodup) :
    ((items.map f).map CartItem.id).Nodup := by
  rw [List.map_map]
  have hfe : (CartItem.id ∘ f) = CartItem.id := funext hf
  rw [hfe]
  exact h

/-- **C3** (corrected, preservation half).  Every in-memory operation
preserves id uniqueness, and hydration / cross-tab adoption preserves it
provided the external payload itself carries pairwise distinct ids.  The
unconditional claim fails: the sanitization pass never deduplicates, so an
externally written array with a repeated id is adopted as-is (see the
counterexample). -/
theorem unique_ids_preserved (op : CartOp) (s : CartState) (h : UniqueIds s)
    (hp : opPayloadUnique op) : UniqueIds (applyOp op s) := by
  cases op with
  | addOp item =>
      simp only [applyOp, addToCart, reducer]
      split
      · exact nodup_ids_map s.items _ (fun i => by by_cases hid : i.id == item.id <;> simp [sanitizeRaw, hid]) h
      · rename_i hnone
        unfold UniqueIds
        simp only [List.map_append, List.map_singleton]
        rw [List.nodup_append]
        refine ⟨h, List.nodup_singleton _, ?_⟩
        intro x hx hx2
        simp only [List.mem_singleton] at hx2
        subst hx2
        simp only [List.mem_map] at hx
        obtain ⟨j, hj, hjid⟩ := hx
        apply hnone
        rw [List.find?_isSome]
        exact ⟨j, hj, by simp [sanitizeRaw, hjid]⟩
  | removeOp id =>
      unfold UniqueIds at h ⊢
      simp only [applyOp, removeFromCart, reducer]
      exact ((List.filter_sublist s.items).map CartItem.id).nodup h
  | clearOp =>
      simp only [UniqueIds, applyOp, clearCart, reducer, List.map_nil]
      exact List.nodup_nil
  | setQtyOp id q =>
      simp only [applyOp, updateQuantity, reducer]
      split
      · exact h
      · exact nodup_ids_map s.items _ (fun i => by by_cases hid : i.id == id <;> simp [hid]) h
  | incOp id delta =>
      exact nodup_ids_map s.items _ (fun i => by by_cases hid : i.id == id <;> simp [hid]) h
  | decOp id delta =>
      exact nodup_ids_map s.items _ (fun i => by by_cases hid : i.id == id <;> simp [hid]) h
  | hydrateOp raw =>
      cases raw with
      | absent => simp [UniqueIds, applyOp, hydrate, reducer]
      | unparsable => simp [UniqueIds, applyOp, hydrate, reducer]
      | value v =>
          cases v with
          | arr elems =>
              simp only [UniqueIds, applyOp, hydrate, reducer, sanitizePayload, List.map_map]
              have hfe : (CartItem.id ∘ sanitizeRaw) = RawItem.id := funext fun p => rfl
              rw [hfe]
              exact hp
          | nonArray => simp [UniqueIds, applyOp, hydrate, reducer]
  | syncOp key raw =>
      simp only [applyOp, onStorage]
      split
      · exact h
      · cases raw with
        | absent => simp [UniqueIds, sanitizePayload, reducer]
        | unparsable => exact h
        | value v =>
            cases v with
            | arr elems =>
                simp only [UniqueIds, reducer, sanitizePayload, List.map_map]
                have hfe : (CartItem.id ∘ sanitizeRaw) = RawItem.id := funext fun p => rfl
                rw [hfe]
                exact hp
            | nonArray => exact h

/-- Witness for `unique_ids_preserved`: adding a line with a fresh id `"a"`
to a cart holding only id `"b"` keeps the ids pairwise distinct. -/
theorem unique_ids_preserved_witness :
    UniqueIds (⟨[lineB 1]⟩ : CartState) ∧ opPayloadUnique (.addOp (rawA (some 1))) ∧
      UniqueIds (applyOp (.addOp (rawA (some 1))) ⟨[lineB 1]⟩) :=
  ⟨by unfold UniqueIds; decide, trivial,
   unique_ids_preserved (.addOp (rawA (some 1))) ⟨[lineB 1]⟩ (by unfold UniqueIds; decide) trivial⟩

/-- **C3** counterexample: hydrating from an externally written array that
repeats id `"a"` yields a snapshot with two lines of the same id — the store
performs no deduplication, so id uniqueness does not hold in every reachable
snapshot. -/
theorem unique_ids_violated_by_duplicate_payload :
    ¬ UniqueIds (hydrate (.value (.arr [rawA (some 1), rawA (some 2)])) ⟨[]⟩) := by
  unfold UniqueIds
  decide

/-- Sum out a left fold that adds one value per line. -/
theorem foldl_add_map (f : CartItem → ℚ) (c : ℚ) (l : List CartItem) :
    l.foldl (fun sum it => sum + f it) c = c + (l.map f).sum := by
  induction l generalizing c with
  | nil => simp
  | cons a l ih =>
      simp only [List.foldl_cons, List.map_cons, List.sum_cons, ih]
      ring

/-- **C6** (confirmed).  `getCartTotal` (the spec's `total()`) returns exactly
Σ (price × quantity) over all lines of the snapshot; it is a fold over the
current snapshot, i.e. derived from it rather than stored. -/
theorem total_eq_sum_price_mul_qty (s : CartState) :
    getCartTotal s = (s.items.map fun i => i.price * i.quantity).sum := by
  unfold getCartTotal
  simpa using foldl_add_map (fun i => i.price * i.quantity) 0 s.items

/-- **C7** (confirmed).  Hydration from an absent stored value, an unparsable
stored value (e.g. the literal string `"not-json"`, on which `JSON.parse`
throws and the `catch` branch runs), or a parsed non-array value always
initializes the snapshot to empty; `hydrate` is a total function, so no
exception reaches the caller. -/
theorem hydrate_defensive_empty (s : CartState) :
    hydrate .absent s = ⟨[]⟩ ∧ hydrate .unparsable s = ⟨[]⟩ ∧
      hydrate (.value .nonArray) s = ⟨[]⟩ :=
  ⟨rfl, rfl, rfl⟩

/-- **C9** (confirmed).  On a snapshot containing no line with the given id,
setQuantity, increaseQuantity and decreaseQuantity all leave the snapshot
entirely unchanged; each is a total function, so no error is raised. -/
theorem qty_ops_frame_absent_id (s : CartState) (id : String) (q d d2 : ℚ)
    (h : ∀ i ∈ s.items, i.id ≠ id) :
    updateQuantity id q s = s ∧ increaseQty id d s = s ∧ decreaseQty id d2 s = s := by
  have hmap : ∀ (f : CartItem → CartItem),
      (s.items.map fun i => if i.id == id then f i else i) = s.items := by
    intro f
    have h1 : (s.items.map fun i => if i.id == id then f i else i) =
        s.items.map fun i => i :=
      List.map_congr_left fun i hi => by simp [beq_eq_false_iff_ne.mpr (h i hi)]
    simpa using h1
  refine ⟨?_, ?_, ?_⟩
  · simp only [updateQuantity, reducer]
    split
    · rfl
    · exact congrArg CartState.mk (hmap _)
  · simp only [increaseQty, reducer]
    exact congrArg CartState.mk (hmap _)
  · simp only [decreaseQty, reducer]
    exact congrArg CartState.mk (hmap _)

/-- Witness for `qty_ops_frame_absent_id`: a cart holding only id `"b"` is
untouched by quantity operations aimed at id `"a"`. -/
theorem qty_ops_frame_absent_id_witness :
    (∀ i ∈ ([lineB 1] : List CartItem), i.id ≠ "a") ∧
      (updateQuantity "a" 5 ⟨[lineB 1]⟩ = ⟨[lineB 1]⟩ ∧
        increaseQty "a" 1 ⟨[lineB 1]⟩ = ⟨[lineB 1]⟩ ∧
        decreaseQty "a" 1 ⟨[lineB 1]⟩ = ⟨[lineB 1]⟩) :=
  ⟨by decide, qty_ops_frame_absent_id ⟨[lineB 1]⟩ "a" 5 1 1 (by decide)⟩

/-- **C4** (corrected).  Full behaviour of the cross-tab listener on the
cart's key: an array payload is sanitized and adopted; an *absent* new value
is treated as `[]` and resets the snapshot to empty; an unparsable payload is
caught and ignored, and a parsed non-array payload falls through the
`Array.isArray` guard with no dispatch — in both of those cases the snapshot
is left unchanged, not reset to empty as the claim states. -/
theorem onStorage_characterization (key : String) (raw : StorageRead) (s : CartState)
    (h : key = storageKey) :
    onStorage key raw s =
      match raw with
      | .absent => ⟨[]⟩
      | .unparsable => s
      | .value (.arr elems) => ⟨sanitizePayload elems⟩
      | .value .nonArray => s := by
  subst h
  unfold onStorage
  simp only [bne_self_eq_false, Bool.false_eq_true, if_false]
  cases raw with
  | absent => rfl
  | unparsable => rfl
  | value v => cases v with
    | arr elems => rfl
    | nonArray => rfl

/-- Witness for `onStorage_characterization`: an externally written
one-element array replaces a cart that previously held id `"b"`. -/
theorem onStorage_characterization_witness :
    storageKey = storageKey ∧
      onStorage storageKey (.value (.arr [rawA (some 2)])) ⟨[lineB 1]⟩ =
        ⟨sanitizePayload [rawA (some 2)]⟩ :=
  ⟨rfl, onStorage_characterization storageKey (.value (.arr [rawA (some 2)])) ⟨[lineB 1]⟩ rfl⟩

/-- **C4** counterexample: a storage notification for the cart's key whose
payload parses to a non-array value leaves a non-empty snapshot exactly as it
was — the store does not reset it to empty. -/
theorem onStorage_non_array_does_not_reset :
    onStorage storageKey (.value .nonArray) ⟨[lineA 2]⟩ = ⟨[lineA 2]⟩ ∧
      (⟨[lineA 2]⟩ : CartState) ≠ (⟨[]⟩ : CartState) := by
  constructor
  · decide
  · decide

/-- Adding an item whose id matches the single resident line merges the
sanitized quantity into that line. -/
theorem addAll_same_id (x : String) (raws : List RawItem) :
    ∀ (i0 : CartItem), i0.id = x → (∀ r ∈ raws, r.id = x) →
    addAll raws ⟨[i0]⟩ =
      ⟨[{ i0 with quantity :=
            i0.quantity + (((raws.map fun r => sanitizeQtyInt r.quantity).sum : ℤ) : ℚ) }]⟩ := by
  induction raws with
  | nil =>
      intro i0 h0 h
      simp [addAll]
  | cons r rest ih =>
      intro i0 h0 h
      have hr : r.id = x := h r (by simp)
      have hstep : addToCart r ⟨[i0]⟩ =
          ⟨[{ i0 with quantity := i0.quantity + ((sanitizeQtyInt r.quantity : ℤ) : ℚ) }]⟩ := by
        unfold addToCart
        simp only [reducer, List.find?_singleton, sanitizeRaw, h0, hr, beq_self_eq_true,
          if_true, Option.isSome_some, List.map_cons, List.map_nil]
      have hrec := ih { i0 with quantity := i0.quantity + ((sanitizeQtyInt r.quantity : ℤ) : ℚ) }
        h0 (fun r hr2 => h r (by simp [hr2]))
      calc addAll (r :: rest) ⟨[i0]⟩
          = addAll rest (addToCart r ⟨[i0]⟩) := rfl
        _ = addAll rest ⟨[{ i0 with quantity := i0.quantity + ((sanitizeQtyInt r.quantity : ℤ) : ℚ) }]⟩ := by
            rw [hstep]
        _ = ⟨[{ i0 with quantity :=
                i0.quantity + (((( r :: rest).map fun r => sanitizeQtyInt r.quantity).sum : ℤ) : ℚ) }]⟩ := by
            rw [hrec]
            simp only [CartState.mk.injEq, List.cons.injEq, and_true, List.map_cons, List.sum_cons]
            cases i0
            simp only [CartItem.mk.injEq, and_true, true_and]
            push_cast
            ring

/-- **C5** (confirmed).  Starting from an empty cart, a sequence of `add`
calls that all carry the same id yields exactly one line; its fields are
those of the first sanitized item, and its quantity is the sum of the added
quantities, each sanitized to `max(1, trunc(quantity))` with a missing /
non-numeric quantity treated as 1. -/
theorem add_same_id_sums (x : String) (r0 : RawItem) (rest : List RawItem)
    (h0 : r0.id = x) (h : ∀ r ∈ rest, r.id = x) :
    addAll (r0 :: rest) ⟨[]⟩ =
      ⟨[{ sanitizeRaw r0 with quantity :=
            ((((r0 :: rest).map fun r => sanitizeQtyInt r.quantity).sum : ℤ) : ℚ) }]⟩ := by
  have hfirst : addToCart r0 ⟨[]⟩ = ⟨[sanitizeRaw r0]⟩ := by
    unfold addToCart
    simp [reducer]
  have h0s : (sanitizeRaw r0).id = x := h0
  have := addAll_same_id x rest (sanitizeRaw r0) h0s h
  calc addAll (r0 :: rest) ⟨[]⟩
      = addAll rest (addToCart r0 ⟨[]⟩) := rfl
    _ = addAll rest ⟨[sanitizeRaw r0]⟩ := by rw [hfirst]
    _ = ⟨[{ sanitizeRaw r0 with quantity :=
            (sanitizeRaw r0).quantity + (((rest.map fun r => sanitizeQtyInt r.quantity).sum : ℤ) : ℚ) }]⟩ := this
    _ = ⟨[{ sanitizeRaw r0 with quantity :=
            ((((r0 :: rest).map fun r => sanitizeQtyInt r.quantity).sum : ℤ) : ℚ) }]⟩ := by
        simp only [CartState.mk.injEq, List.cons.injEq, and_true, List.map_cons, List.sum_cons,
          sanitizeRaw, CartItem.mk.injEq, true_and]
        push_cast
        ring

/-- Witness for `add_same_id_sums`: the spec's scenario — add
`{id:"a", price:100, quantity:2}` then `{id:"a", price:100, quantity:3}` to
an empty cart; the snapshot is one line of id `"a"` with quantity 5, and
`total()` is 500. -/
theorem add_same_id_sums_witness :
    (rawA (some 2)).id = "a" ∧ (∀ r ∈ [rawA (some 3)], r.id = "a") ∧
      addAll [rawA (some 2), rawA (some 3)] ⟨[]⟩ =
        ⟨[{ sanitizeRaw (rawA (some 2)) with quantity :=
              (((([rawA (some 2), rawA (some 3)].map fun r => sanitizeQtyInt r.quantity).sum : ℤ) : ℚ) : ℚ) }]⟩ ∧
      addAll [rawA (some 2), rawA (some 3)] ⟨[]⟩ = ⟨[lineA 5]⟩ ∧
      getCartTotal (addAll [rawA (some 2), rawA (some 3)] ⟨[]⟩) = 500 :=
  by
  have e := add_same_id_sums "a" (rawA (some 2)) [rawA (some 3)] rfl (by decide)
  have h2 : jsTrunc (2:ℚ) = 2 := by
    rw [show ((2:ℚ)) = ((2:ℤ):ℚ) from by norm_num]
    exact jsTrunc_intCast 2
  have h3 : jsTrunc (3:ℚ) = 3 := by
    rw [show ((3:ℚ)) = ((3:ℤ):ℚ) from by norm_num]
    exact jsTrunc_intCast 3
  have e2 : addAll [rawA (some 2), rawA (some 3)] ⟨[]⟩ = ⟨[lineA 5]⟩ := by
    rw [e]
    norm_num [sanitizeRaw, rawA, lineA, sanitizeQtyInt, jsOr1, h2, h3]
  refine ⟨rfl, by decide, e, e2, ?_⟩
  rw [e2]
  norm_num [getCartTotal, lineA]

/-- Reading back the serialized form of a line that satisfies the quantity
invariant reproduces the line exactly: sanitization is the identity on
integer quantities ≥ 1. -/
theorem sanitizeRaw_encodeItem (i : CartItem) (n : ℤ) (hn1 : 1 ≤ n)
    (hq : i.quantity = (n : ℚ)) : sanitizeRaw (encodeItem i) = i := by
  have hq0 : i.quantity ≠ 0 := by
    rw [hq]
    exact_mod_cast (show n ≠ 0 by omega)
  have hs : sanitizeQtyInt (some i.quantity) = n := by
    simp only [sanitizeQtyInt, jsOr1]
    rw [if_neg hq0, hq, jsTrunc_intCast]
    exact max_eq_right hn1
  cases i
  simp only [sanitizeRaw, encodeItem] at hs ⊢
  simp only [CartItem.mk.injEq, true_and, and_true]
  rw [hs, ← hq]

/-- **C8** (confirmed).  Writing a snapshot that satisfies the quantity
invariant to durable storage (`JSON.stringify` of the line array) and then
hydrating from that stored value reproduces the same snapshot — same ids,
quantities, prices and all carried fields — because the read-side
sanitization pass is the identity on integer quantities ≥ 1. -/
theorem persist_hydrate_roundtrip (s s0 : CartState) (h : QtyInv s) :
    hydrate (.value (persistedVal s)) s0 = ⟨s.items⟩ := by
  unfold hydrate persistedVal
  simp only [reducer, sanitizePayload, List.map_map, CartState.mk.injEq]
  have hpt : ∀ i ∈ s.items, (sanitizeRaw ∘ encodeItem) i = (fun i => i) i := by
    intro i hi
    obtain ⟨n, hn1, hq⟩ := h i hi
    exact sanitizeRaw_encodeItem i n hn1 hq
  rw [List.map_congr_left hpt]
  simp

/-- Witness for `persist_hydrate_roundtrip` on a two-line snapshot. -/
theorem persist_hydrate_roundtrip_witness :
    QtyInv ⟨[lineA 2, lineB 1]⟩ ∧
      hydrate (.value (persistedVal ⟨[lineA 2, lineB 1]⟩)) ⟨[]⟩ = ⟨[lineA 2, lineB 1]⟩ :=
  have hinv : QtyInv (⟨[lineA 2, lineB 1]⟩ : CartState) := fun i hi => by
    simp only [List.mem_cons, List.not_mem_nil, or_false] at hi
    rcases hi with rfl | rfl
    · exact ⟨2, by norm_num, by norm_num [lineA]⟩
    · exact ⟨1, by norm_num, by norm_num [lineB]⟩
  ⟨hinv, persist_hydrate_roundtrip ⟨[lineA 2, lineB 1]⟩ ⟨[]⟩ hinv⟩

/-- **C10** (confirmed).  Adding an item whose id already exists changes only
that line's quantity: the resident line keeps its name, price, position and
every other field (the incoming item's non-quantity fields are discarded),
and all other lines are untouched. -/
theorem add_existing_id_frame (pre post : List CartItem) (ex : CartItem) (raw : RawItem)
    (h1 : ex.id = raw.id) (h2 : ∀ i ∈ pre, i.id ≠ raw.id) (h3 : ∀ i ∈ post, i.id ≠ raw.id) :
    addToCart raw ⟨pre ++ ex :: post⟩ =
      ⟨pre ++ { ex with quantity := ex.quantity + ((sanitizeQtyInt raw.quantity : ℤ) : ℚ) } :: post⟩ := by
  unfold addToCart
  simp only [reducer]
  have hfind : (((pre ++ ex :: post).find? fun i => i.id == (sanitizeRaw raw).id)).isSome := by
    rw [List.find?_isSome]
    exact ⟨ex, by simp, by simp [sanitizeRaw, h1]⟩
  split
  · congr 1
    rw [List.map_append, List.map_cons]
    have hpre : (pre.map fun i => if i.id == (sanitizeRaw raw).id then
        { i with quantity := i.quantity + (sanitizeRaw raw).quantity } else i) = pre := by
      have := List.map_congr_left
        (fun i hi => by simp [sanitizeRaw, beq_eq_false_iff_ne.mpr (h2 i hi)] :
          ∀ i ∈ pre, (if i.id == (sanitizeRaw raw).id then
            { i with quantity := i.quantity + (sanitizeRaw raw).quantity } else i) = (fun i => i) i)
      simpa using this
    have hpost : (post.map fun i => if i.id == (sanitizeRaw raw).id then
        { i with quantity := i.quantity + (sanitizeRaw raw).quantity } else i) = post := by
      have := List.map_congr_left
        (fun i hi => by simp [sanitizeRaw, beq_eq_false_iff_ne.mpr (h3 i hi)] :
          ∀ i ∈ post, (if i.id == (sanitizeRaw raw).id then
            { i with quantity := i.quantity + (sanitizeRaw raw).quantity } else i) = (fun i => i) i)
      simpa using this
    rw [hpre, hpost]
    congr 1
    simp [sanitizeRaw, h1]
  · rename_i hnone
    exact absurd hfind hnone

/-- Witness for `add_existing_id_frame`: adding id `"a"` (quantity 3) to the
cart `[lineB 1, lineA 2, lineB' …]` with the resident `"a"` line in the
middle changes only that line's quantity. -/
theorem add_existing_id_frame_witness :
    (lineA 2).id = (rawA (some 3)).id ∧
      (∀ i ∈ [lineB 1], i.id ≠ (rawA (some 3)).id) ∧
      (∀ i ∈ [lineB 4], i.id ≠ (rawA (some 3)).id) ∧
      addToCart (rawA (some 3)) ⟨[lineB 1] ++ lineA 2 :: [lineB 4]⟩ =
        ⟨[lineB 1] ++
          { lineA 2 with quantity := (lineA 2).quantity + ((sanitizeQtyInt (rawA (some 3)).quantity : ℤ) : ℚ) } ::
          [lineB 4]⟩ :=
  ⟨rfl, by decide, by decide,
   add_existing_id_frame [lineB 1] [lineB 4] (lineA 2) (rawA (some 3)) rfl (by decide) (by decide)⟩

end Theorems

end Cart
